import Mathlib

/-!
# Verification of the apple-scraper core (histv7.py)

Shallow embedding of the price parser, change detector, machine-type
classifier, variant-ID lookup and record standardizer of `src/histv7.py`,
together with proofs of the specification claims about them.

Conventions:
* Python floats carrying prices are modelled as exact rationals (`ℚ`);
  every price literal in the program is a short decimal, and the claims
  are about the branch structure and decimal arithmetic of the code.
* Python strings are modelled as Lean `String`s; helpers such as
  substring search and `str.replace` are given explicit executable
  definitions operating on `List Char`.
* `re.findall` of the currency pattern followed by `float` conversion is
  the tokenizer front-end of the price parser; the parser proper is a
  function of the resulting numeric token list, which is how it is
  embedded here (`extract_prices_from_text` takes the token list
  produced by that front-end).
-/

namespace AppleScraper

/-! ## Python `round(x, 2)`: banker's rounding to two decimal places -/

/-- Round a rational to the nearest integer, ties to even
(the rounding mode of Python's builtin `round`). -/
def roundHalfEven (q : ℚ) : ℤ :=
  let f : ℤ := ⌊q⌋
  let r : ℚ := q - (f : ℚ)
  if r < 1/2 then f
  else if 1/2 < r then f + 1
  else if f % 2 = 0 then f else f + 1

/-- Python `round(x, 2)` on an exact rational. -/
def round2 (q : ℚ) : ℚ := (roundHalfEven (q * 100) : ℚ) / 100

/-! ## Price parser (`extract_prices_from_text`, histv7.py lines 1239-1316) -/

/-- Result record of the price parser: the four optional fields of the
`prices` dict. -/
structure Prices where
  current_price : Option ℚ
  original_price : Option ℚ
  savings : Option ℚ
  discount_percentage : Option ℚ
deriving DecidableEq

/-- The empty `prices` dict (all fields `None`). -/
def Prices.empty : Prices := ⟨none, none, none, none⟩

/-- The plausibility filter of the price parser:
`if 200 <= value <= 20000` ("Reasonable range for Apple products"). -/
def priceInRange (v : ℚ) : Bool := 200 ≤ v && v ≤ 20000

/-- The dispatch of `extract_prices_from_text` on the filtered value
list: 1 value, current only; 2 values, (current, original) when the
second is larger, else current only; 3 or more values, (current,
original, savings) when the arithmetic cross-check passes within
tolerance 2, else the 2-value logic on the first two values. -/
def pricesFromValues : List ℚ → Prices
  | [] => Prices.empty
  | [p1] => ⟨some p1, none, none, none⟩
  | [p1, p2] =>
      if p1 < p2 then
        ⟨some p1, some p2, some (p2 - p1), some (round2 ((p2 - p1) / p2 * 100))⟩
      else
        ⟨some p1, none, none, none⟩
  | current :: original :: savings :: _ =>
      if |original - current - savings| ≤ 2 then
        ⟨some current, some original, some savings,
          some (round2 (savings / original * 100))⟩
      else if current < original then
        ⟨some current, some original, some (original - current),
          some (round2 ((original - current) / original * 100))⟩
      else
        ⟨some current, none, none, none⟩

/-- `extract_prices_from_text`, as a function of the numeric tokens
found by the currency regular expression: filter by the plausibility
window, then dispatch on the count. -/
def extract_prices_from_text (tokens : List ℚ) : Prices :=
  pricesFromValues (tokens.filter priceInRange)

/-! ## Price parser claims -/

/-- C1: with exactly two surviving tokens A then B, the parser returns
(current=A, original=B, savings=B-A, discount=round((B-A)/B*100, 2))
when B>A, and only current=A when B<=A. -/
theorem extract_prices_two_values (tokens : List ℚ) (a b : ℚ)
    (h : tokens.filter priceInRange = [a, b]) :
    extract_prices_from_text tokens =
      if a < b then
        ⟨some a, some b, some (b - a), some (round2 ((b - a) / b * 100))⟩
      else
        ⟨some a, none, none, none⟩ := by
  unfold extract_prices_from_text
  rw [h]
  rfl

/-- Witness for C1: both branches at concrete token lists. -/
theorem extract_prices_two_values_witness :
    extract_prices_from_text [300, 400] =
        ⟨some 300, some 400, some 100, some 25⟩ ∧
      extract_prices_from_text [500, 300] = ⟨some 500, none, none, none⟩ := by
  constructor
  · rw [extract_prices_two_values [300, 400] 300 400 (by norm_num [priceInRange])]
    norm_num [round2, roundHalfEven]
  · rw [extract_prices_two_values [500, 300] 500 300 (by norm_num [priceInRange])]
    norm_num

/-- C2: with three or more surviving tokens c, o, s, ..., the parser
returns (c, o, s, round(s/o*100, 2)) when |(o-c)-s| <= 2, and otherwise
falls back to the two-value logic on c and o alone. -/
theorem extract_prices_three_values (tokens : List ℚ) (c o s : ℚ)
    (rest : List ℚ) (h : tokens.filter priceInRange = c :: o :: s :: rest) :
    extract_prices_from_text tokens =
      if |o - c - s| ≤ 2 then
        ⟨some c, some o, some s, some (round2 (s / o * 100))⟩
      else if c < o then
        ⟨some c, some o, some (o - c), some (round2 ((o - c) / o * 100))⟩
      else
        ⟨some c, none, none, none⟩ := by
  unfold extract_prices_from_text
  rw [h]
  rfl

/-- Witness for C2: the validated branch, the fallback branch with
original > current, and the fallback branch discarding everything but
the first value. -/
theorem extract_prices_three_values_witness :
    extract_prices_from_text [1000, 1500, 500, 333] =
        ⟨some 1000, some 1500, some 500, some (3333/100)⟩ ∧
      extract_prices_from_text [1000, 1500, 900] =
        ⟨some 1000, some 1500, some 500, some (3333/100)⟩ ∧
      extract_prices_from_text [1500, 1000, 900] =
        ⟨some 1500, none, none, none⟩ := by
  refine ⟨?_, ?_, ?_⟩
  · rw [extract_prices_three_values [1000, 1500, 500, 333]
      1000 1500 500 [333] (by norm_num [priceInRange])]
    norm_num [round2, roundHalfEven]
  · rw [extract_prices_three_values [1000, 1500, 900]
      1000 1500 900 [] (by norm_num [priceInRange])]
    norm_num [round2, roundHalfEven]
  · rw [extract_prices_three_values [1500, 1000, 900]
      1500 1000 900 [] (by norm_num [priceInRange])]
    norm_num

/-- C6 counterexample: the claim's test vector (100, 150, 50) lies
entirely below the plausibility window [200, 20000], so the parser
returns the empty record, not (100, 150, 50, 33.33). -/
theorem extract_prices_c6_counterexample :
    extract_prices_from_text [100, 150, 50] = Prices.empty ∧
      extract_prices_from_text [100, 150, 50] ≠
        ⟨some 100, some 150, some 50, some (3333/100)⟩ := by
  constructor
  · norm_num [extract_prices_from_text, priceInRange, pricesFromValues,
      Prices.empty]
  · norm_num [extract_prices_from_text, priceInRange, pricesFromValues,
      Prices.empty]
    exact fun h => Option.noConfusion h

/-- C6 amended: for the in-range test vector (1000, 1500, 500), which
passes the three-price arithmetic check, the parser returns
current=1000, original=1500, savings=500, discount=33.33. -/
theorem extract_prices_c6_amended :
    extract_prices_from_text [1000, 1500, 500] =
      ⟨some 1000, some 1500, some 500, some (3333/100)⟩ := by
  norm_num [extract_prices_from_text, priceInRange, pricesFromValues,
    round2, roundHalfEven]

/-- Every element surviving `List.filter priceInRange` is at least 200. -/
theorem mem_filter_priceInRange_le {tokens : List ℚ} {v : ℚ}
    (h : v ∈ tokens.filter priceInRange) : 200 ≤ v := by
  have hp := List.of_mem_filter h
  unfold priceInRange at hp
  simp only [Bool.and_eq_true, decide_eq_true_eq] at hp
  exact hp.1

/-- C9 (output invariant): whenever the parser sets `original_price`,
it also sets `current_price` strictly below it, and sets both
`savings` and `discount_percentage`. -/
theorem extract_prices_original_invariant (tokens : List ℚ) (o : ℚ)
    (h : (extract_prices_from_text tokens).original_price = some o) :
    ∃ c s d, extract_prices_from_text tokens = ⟨some c, some o, some s, some d⟩ ∧
      c < o := by
  unfold extract_prices_from_text at *
  revert h
  cases hf : tokens.filter priceInRange with
  | nil => intro h; simp [pricesFromValues, Prices.empty] at h
  | cons p1 t1 =>
    cases t1 with
    | nil => intro h; simp [pricesFromValues] at h
    | cons p2 t2 =>
      cases t2 with
      | nil =>
        -- two surviving values
        simp only [pricesFromValues]
        by_cases hlt : p1 < p2
        · simp only [if_pos hlt]
          intro h
          obtain rfl : p2 = o := by simpa using h
          exact ⟨p1, _, _, rfl, hlt⟩
        · simp only [if_neg hlt]
          intro h
          simp at h
      | cons p3 t3 =>
        -- three or more surviving values
        have hmem : p3 ∈ tokens.filter priceInRange := by
          rw [hf]; simp
        have hs : 200 ≤ p3 := mem_filter_priceInRange_le hmem
        simp only [pricesFromValues]
        by_cases hchk : |p2 - p1 - p3| ≤ 2
        · simp only [if_pos hchk]
          intro h
          obtain rfl : p2 = o := by simpa using h
          refine ⟨p1, _, _, rfl, ?_⟩
          -- |p2 - p1 - p3| <= 2 and p3 >= 200 force p2 - p1 >= 198 > 0
          have h1 : -(2 : ℚ) ≤ p2 - p1 - p3 := (abs_le.mp hchk).1
          linarith
        · simp only [if_neg hchk]
          by_cases hlt : p1 < p2
          · simp only [if_pos hlt]
            intro h
            obtain rfl : p2 = o := by simpa using h
            exact ⟨p1, _, _, rfl, hlt⟩
          · simp only [if_neg hlt]
            intro h
            simp at h

/-- Witness for C9 at a concrete token list. -/
theorem extract_prices_original_invariant_witness :
    ∃ c s d,
      extract_prices_from_text [250, 280, 19000] =
          ⟨some c, some 280, some s, some d⟩ ∧
        c < 280 :=
  extract_prices_original_invariant [250, 280, 19000] 280 (by
    norm_num [extract_prices_from_text, priceInRange, pricesFromValues])

/-! ## Change detector (`detect_and_log_changes`, histv7.py lines 1509-1593)

The detector's pure core: given the current product list and the
previous snapshot (a dict keyed by SKU), it produces the price-change
rows and the availability rows that the surrounding code appends to the
history sheets.  Sheet I/O and the shared run timestamp are external;
the timestamp is passed in as a parameter. -/

/-- A product record as far as the change detector reads it:
`model_sku`, `name`, `current_price` and `url`, each possibly absent. -/
structure Product where
  model_sku : Option String
  name : Option String
  current_price : Option ℚ
  url : Option String
deriving DecidableEq

/-- Python truthiness of `p.get('model_sku')`: a product contributes a
key exactly when the field is present and non-empty. -/
def skuOf (p : Product) : Option String :=
  match p.model_sku with
  | some s => if s = "" then none else some s
  | none => none

/-- `float(record.get('current_price', 0) or 0)`: a missing price reads
as 0. -/
def priceOrZero (p : Product) : ℚ := p.current_price.getD 0

/-- A Python dict keyed by SKU, in insertion order. -/
abbrev Snapshot := List (String × Product)

/-- The key list of a snapshot. -/
def keysOf (m : Snapshot) : List String := m.map Prod.fst

/-- Dict lookup: value at the (first) occurrence of a key. -/
def findVal : Snapshot → String → Option Product
  | [], _ => none
  | kp :: t, s => if kp.1 = s then some kp.2 else findVal t s

/-- `sku in d` for a dict. -/
def hasKey (m : Snapshot) (s : String) : Bool := (findVal m s).isSome

/-- One dict update: replace the value at an existing key in place, or
append a fresh key at the end (Python dict insertion-order semantics). -/
def updateAssoc (m : Snapshot) (k : String) (v : Product) : Snapshot :=
  if m.any (fun kp => kp.1 == k) then
    m.map (fun kp => if kp.1 == k then (k, v) else kp)
  else
    m ++ [(k, v)]

/-- One step of the dict comprehension building `current_lookup`. -/
def lookupStep (m : Snapshot) (p : Product) : Snapshot :=
  match skuOf p with
  | some k => updateAssoc m k p
  | none => m

/-- `{p.get('model_sku'): p for p in current_products if p.get('model_sku')}` -/
def currentLookup (ps : List Product) : Snapshot :=
  ps.foldl lookupStep []

/-- An availability-history row: timestamp, sku, name, change type
(`APPEARED` or `DISAPPEARED`), raw price, url. -/
structure AvailEvent where
  ts : String
  sku : String
  name : Option String
  change_type : String
  price : Option ℚ
  url : Option String
deriving DecidableEq

/-- A price-history row: timestamp, sku, name, change type
(`PRICE_INCREASE` or `PRICE_DECREASE`), previous price, current price,
change amount, url. -/
structure PriceEvent where
  ts : String
  sku : String
  name : Option String
  change_type : String
  previous_price : ℚ
  current_price : ℚ
  change_amount : ℚ
  url : Option String
deriving DecidableEq

/-- The body of the "new products (appeared)" loop for one entry of the
current lookup: a row exactly when the SKU is absent from the previous
snapshot. -/
def appearedRow (ts : String) (previous : Snapshot) (k : String)
    (p : Product) : Option AvailEvent :=
  if hasKey previous k then none
  else some ⟨ts, k, p.name, "APPEARED", p.current_price, p.url⟩

/-- The body of the "removed products (disappeared)" loop for one entry
of the previous snapshot: a row exactly when the SKU is absent from the
current lookup. -/
def disappearedRow (ts : String) (lookup : Snapshot) (k : String)
    (p : Product) : Option AvailEvent :=
  if hasKey lookup k then none
  else some ⟨ts, k, p.name, "DISAPPEARED", p.current_price, p.url⟩

/-- The body of the "price changes" loop for one entry of the current
lookup: a row exactly when the SKU is in the previous snapshot and the
two effective prices are different and both strictly positive. -/
def priceRow (ts : String) (previous : Snapshot) (k : String)
    (p : Product) : Option PriceEvent :=
  (findVal previous k).bind (fun prevP =>
    let cp := priceOrZero p
    let pp := priceOrZero prevP
    if cp ≠ pp ∧ 0 < cp ∧ 0 < pp then
      some ⟨ts, k, p.name,
        if 0 < cp - pp then "PRICE_INCREASE" else "PRICE_DECREASE",
        pp, cp, cp - pp, p.url⟩
    else none)

/-- `detect_and_log_changes` (pure core): returns
(price_changes, availability_changes). The availability rows are the
APPEARED rows (one pass over the current lookup) followed by the
DISAPPEARED rows (one pass over the previous snapshot); the price rows
come from a second pass over the current lookup. -/
def detect_and_log_changes (ts : String) (current : List Product)
    (previous : Snapshot) : List PriceEvent × List AvailEvent :=
  let lookup := currentLookup current
  (lookup.filterMap (fun kp => priceRow ts previous kp.1 kp.2),
    lookup.filterMap (fun kp => appearedRow ts previous kp.1 kp.2) ++
      previous.filterMap (fun kp => disappearedRow ts lookup kp.1 kp.2))

/-! ### Dict lemmas -/

theorem keysOf_updateAssoc_mem (m : Snapshot) (k : String) (v : Product)
    (h : k ∈ keysOf m) : keysOf (updateAssoc m k v) = keysOf m := by
  have hany : m.any (fun kp => kp.1 == k) = true := by
    rw [List.any_eq_true]
    obtain ⟨kp, hkp, hfst⟩ := List.mem_map.mp h
    exact ⟨kp, hkp, by simp [hfst]⟩
  unfold updateAssoc
  rw [if_pos hany]
  unfold keysOf
  rw [List.map_map]
  apply List.map_congr_left
  intro kp _
  by_cases hk : kp.1 = k
  · simp [hk]
  · simp [hk]

theorem keysOf_updateAssoc_not_mem (m : Snapshot) (k : String) (v : Product)
    (h : k ∉ keysOf m) : keysOf (updateAssoc m k v) = keysOf m ++ [k] := by
  have hany : m.any (fun kp => kp.1 == k) = false := by
    rw [List.any_eq_false]
    intro kp hkp
    simp only [beq_iff_eq]
    intro hfst
    exact h (List.mem_map.mpr ⟨kp, hkp, hfst⟩)
  unfold updateAssoc
  rw [hany]
  simp [keysOf]

theorem mem_keysOf_updateAssoc (m : Snapshot) (k : String) (v : Product)
    (s : String) :
    s ∈ keysOf (updateAssoc m k v) ↔ s ∈ keysOf m ∨ s = k := by
  by_cases h : k ∈ keysOf m
  · rw [keysOf_updateAssoc_mem m k v h]
    constructor
    · exact Or.inl
    · rintro (hs | rfl)
      · exact hs
      · exact h
  · rw [keysOf_updateAssoc_not_mem m k v h]
    simp

theorem nodup_keysOf_updateAssoc (m : Snapshot) (k : String) (v : Product)
    (h : (keysOf m).Nodup) : (keysOf (updateAssoc m k v)).Nodup := by
  by_cases hk : k ∈ keysOf m
  · rwa [keysOf_updateAssoc_mem m k v hk]
  · rw [keysOf_updateAssoc_not_mem m k v hk]
    simp [List.nodup_append, h, hk]

theorem nodup_keysOf_foldl (ps : List Product) :
    ∀ acc : Snapshot, (keysOf acc).Nodup →
      (keysOf (ps.foldl lookupStep acc)).Nodup := by
  induction ps with
  | nil => intro acc h; simpa using h
  | cons p t ih =>
    intro acc h
    rw [List.foldl_cons]
    apply ih
    unfold lookupStep
    cases skuOf p with
    | none => exact h
    | some k => exact nodup_keysOf_updateAssoc acc k p h

/-- The current lookup has pairwise distinct keys. -/
theorem nodup_keysOf_currentLookup (ps : List Product) :
    (keysOf (currentLookup ps)).Nodup :=
  nodup_keysOf_foldl ps [] (by simp [keysOf])

theorem mem_keysOf_foldl (ps : List Product) :
    ∀ (acc : Snapshot) (s : String),
      s ∈ keysOf (ps.foldl lookupStep acc) ↔
        s ∈ keysOf acc ∨ ∃ p ∈ ps, skuOf p = some s := by
  induction ps with
  | nil => intro acc s; simp
  | cons p t ih =>
    intro acc s
    rw [List.foldl_cons, ih]
    unfold lookupStep
    cases hp : skuOf p with
    | none =>
      constructor
      · rintro (h | ⟨q, hq, hq2⟩)
        · exact Or.inl h
        · exact Or.inr ⟨q, List.mem_cons_of_mem p hq, hq2⟩
      · rintro (h | ⟨q, hq, hq2⟩)
        · exact Or.inl h
        · rcases List.mem_cons.mp hq with rfl | hq'
          · rw [hq2] at hp; cases hp
          · exact Or.inr ⟨q, hq', hq2⟩
    | some k =>
      rw [mem_keysOf_updateAssoc]
      constructor
      · rintro ((h | rfl) | ⟨q, hq, hq2⟩)
        · exact Or.inl h
        · exact Or.inr ⟨p, List.mem_cons_self p t, hp⟩
        · exact Or.inr ⟨q, List.mem_cons_of_mem p hq, hq2⟩
      · rintro (h | ⟨q, hq, hq2⟩)
        · exact Or.inl (Or.inl h)
        · rcases List.mem_cons.mp hq with rfl | hq'
          · rw [hq2] at hp
            exact Or.inl (Or.inr (Option.some_injective _ hp))
          · exact Or.inr ⟨q, hq', hq2⟩

/-- Spec-side predicate: the SKU `s` occurs in the current product list
(as a present, non-empty `model_sku`). -/
def skuPresentIn (ps : List Product) (s : String) : Prop :=
  ∃ p ∈ ps, skuOf p = some s

/-- A SKU is a key of the current lookup iff some current product
carries it. -/
theorem mem_keysOf_currentLookup (ps : List Product) (s : String) :
    s ∈ keysOf (currentLookup ps) ↔ skuPresentIn ps s := by
  unfold currentLookup skuPresentIn
  rw [mem_keysOf_foldl]
  simp [keysOf]

theorem findVal_eq_none_iff (m : Snapshot) (s : String) :
    findVal m s = none ↔ s ∉ keysOf m := by
  induction m with
  | nil => simp [findVal, keysOf]
  | cons kp t ih =>
    by_cases h : kp.1 = s
    · simp [findVal, h, keysOf]
    · simp only [findVal, if_neg h]
      rw [ih]
      unfold keysOf
      simp only [List.map_cons, List.mem_cons, not_or]
      constructor
      · intro hn
        exact ⟨fun he => h he.symm, hn⟩
      · exact And.right

theorem findVal_isSome_iff (m : Snapshot) (s : String) :
    (findVal m s).isSome = true ↔ s ∈ keysOf m := by
  rw [Option.isSome_iff_ne_none, ne_eq, findVal_eq_none_iff]
  simp

theorem hasKey_iff (m : Snapshot) (s : String) :
    hasKey m s = true ↔ s ∈ keysOf m := by
  unfold hasKey
  exact findVal_isSome_iff m s

/-- In a snapshot with distinct keys, membership pins down the lookup. -/
theorem findVal_of_mem_nodup (m : Snapshot) (s : String) (v : Product)
    (hnd : (keysOf m).Nodup) (h : (s, v) ∈ m) : findVal m s = some v := by
  induction m with
  | nil => cases h
  | cons kp t ih =>
    have hnd' := List.nodup_cons.mp (show (kp.1 :: keysOf t).Nodup from hnd)
    rcases List.mem_cons.mp h with rfl | hmem
    · simp [findVal]
    · have hk : kp.1 ≠ s := by
        intro hfst
        have : s ∈ keysOf t := List.mem_map.mpr ⟨(s, v), hmem, rfl⟩
        rw [← hfst] at this
        exact hnd'.1 this
      simp only [findVal, if_neg hk]
      exact ih hnd'.2 hmem

/-! ### Row inversion lemmas -/

theorem appearedRow_eq_some (ts : String) (previous : Snapshot)
    (k : String) (p : Product) (e : AvailEvent)
    (h : appearedRow ts previous k p = some e) :
    e = ⟨ts, k, p.name, "APPEARED", p.current_price, p.url⟩ ∧
      hasKey previous k = false := by
  unfold appearedRow at h
  by_cases hc : hasKey previous k = true
  · rw [if_pos hc] at h
    cases h
  · rw [if_neg hc] at h
    exact ⟨(Option.some_injective _ h).symm, by simpa using hc⟩

theorem disappearedRow_eq_some (ts : String) (lookup : Snapshot)
    (k : String) (p : Product) (e : AvailEvent)
    (h : disappearedRow ts lookup k p = some e) :
    e = ⟨ts, k, p.name, "DISAPPEARED", p.current_price, p.url⟩ ∧
      hasKey lookup k = false := by
  unfold disappearedRow at h
  by_cases hc : hasKey lookup k = true
  · rw [if_pos hc] at h
    cases h
  · rw [if_neg hc] at h
    exact ⟨(Option.some_injective _ h).symm, by simpa using hc⟩

theorem priceRow_eq_some (ts : String) (previous : Snapshot)
    (k : String) (p : Product) (e : PriceEvent)
    (h : priceRow ts previous k p = some e) :
    ∃ prevP, findVal previous k = some prevP ∧
      priceOrZero p ≠ priceOrZero prevP ∧
      0 < priceOrZero p ∧ 0 < priceOrZero prevP ∧
      e = ⟨ts, k, p.name,
        if 0 < priceOrZero p - priceOrZero prevP
          then "PRICE_INCREASE" else "PRICE_DECREASE",
        priceOrZero prevP, priceOrZero p,
        priceOrZero p - priceOrZero prevP, p.url⟩ := by
  unfold priceRow at h
  cases hf : findVal previous k with
  | none =>
    rw [hf, Option.none_bind] at h
    cases h
  | some prevP =>
    rw [hf, Option.some_bind] at h
    by_cases hc : priceOrZero p ≠ priceOrZero prevP ∧
        0 < priceOrZero p ∧ 0 < priceOrZero prevP
    · rw [if_pos hc] at h
      exact ⟨prevP, rfl, hc.1, hc.2.1, hc.2.2, (Option.some_injective _ h).symm⟩
    · rw [if_neg hc] at h
      cases h

/-! ### Counting rows keyed by one SKU -/

/-- If `s` is not a key of `m`, one pass over `m` emits no row keyed
`s`. -/
theorem countP_row_absent {E : Type} (m : Snapshot)
    (f : String → Product → Option E) (key : E → String) (s : String)
    (hkey : ∀ k v e, f k v = some e → key e = k)
    (hs : s ∉ keysOf m) :
    ((m.filterMap (fun kp => f kp.1 kp.2)).countP (fun e => key e == s)) = 0 := by
  rw [List.countP_eq_zero]
  intro e he
  obtain ⟨kp, hkp, hfe⟩ := List.mem_filterMap.mp he
  have hk := hkey kp.1 kp.2 e hfe
  simp only [hk, beq_iff_eq]
  intro hfst
  exact hs (hfst ▸ List.mem_map.mpr ⟨kp, hkp, rfl⟩)

/-- If `s` is a key of the distinct-key snapshot `m` with value `v`,
one pass over `m` emits exactly one row keyed `s` when the emitter
fires at `(s, v)`, and none otherwise. -/
theorem countP_row_present {E : Type} (m : Snapshot)
    (f : String → Product → Option E) (key : E → String) (s : String)
    (v : Product) (hnd : (keysOf m).Nodup)
    (hkey : ∀ k v e, f k v = some e → key e = k)
    (hs : findVal m s = some v) :
    ((m.filterMap (fun kp => f kp.1 kp.2)).countP (fun e => key e == s)) =
      if (f s v).isSome then 1 else 0 := by
  induction m with
  | nil => cases hs
  | cons kp t ih =>
    obtain ⟨k, w⟩ := kp
    have hnd' := List.nodup_cons.mp (show (k :: keysOf t).Nodup from hnd)
    rw [List.filterMap_cons]
    by_cases hks : k = s
    · subst hks
      have hv : w = v := by
        have h0 : findVal ((k, w) :: t) k = some w := by simp [findVal]
        rw [h0] at hs
        exact Option.some_injective _ hs
      subst hv
      have htail :
          ((t.filterMap (fun kp => f kp.1 kp.2)).countP (fun e => key e == k)) = 0 :=
        countP_row_absent t f key k hkey hnd'.1
      cases hf : f k w with
      | none => simpa [hf] using htail
      | some e =>
        have hke := hkey k w e hf
        simp [hf, List.countP_cons, htail, hke]
    · have hs' : findVal t s = some v := by
        have heq : findVal ((k, w) :: t) s = findVal t s := by
          simp [findVal, hks]
        rwa [heq] at hs
      cases hf : f k w with
      | none => simpa [hf] using ih hnd'.2 hs'
      | some e =>
        have hke := hkey k w e hf
        have hne : (key e == s) = false := by
          simp [hke, hks]
        simp only [hf, List.countP_cons, hne]
        rw [ih hnd'.2 hs']
        simp

/-- Spec-side Boolean: the price-change signal at SKU `s` — present in
both snapshots with both effective prices strictly positive and
different. -/
def priceSignal (current : List Product) (previous : Snapshot)
    (s : String) : Bool :=
  match findVal (currentLookup current) s, findVal previous s with
  | some pc, some pv =>
      decide (priceOrZero pc ≠ priceOrZero pv ∧
        0 < priceOrZero pc ∧ 0 < priceOrZero pv)
  | _, _ => false

/-- C3 counterexample: with a present, non-zero, different (but
negative) new price, the code emits no price event, contrary to the
claim's "present, non-zero, and different" condition. -/
theorem detect_changes_nonzero_counterexample :
    ((-300 : ℚ) ≠ 0) ∧ ((300 : ℚ) ≠ 0) ∧ ((-300 : ℚ) ≠ (300 : ℚ)) ∧
      (detect_and_log_changes "t"
          [⟨some "S", some "N", some (-300), none⟩]
          [("S", ⟨some "S", some "N", some 300, none⟩)]).1 = [] := by
  refine ⟨by norm_num, by norm_num, by norm_num, ?_⟩
  have hcl : currentLookup [⟨some "S", some "N", some (-300), none⟩] =
      [("S", ⟨some "S", some "N", some (-300), none⟩)] := by rfl
  unfold detect_and_log_changes
  rw [hcl]
  norm_num [priceRow, findVal, priceOrZero]

/-- C3 amended: per SKU, exactly one APPEARED row iff it is in the
current lookup but not the previous snapshot, exactly one DISAPPEARED
row iff conversely, exactly one price row iff both effective prices are
strictly positive and different, that row carrying
change_amount = new minus old and the INCREASE/DECREASE tag by sign;
being in the current lookup is the same as occurring in the current
list. -/
theorem detect_changes_events (ts s : String) (current : List Product)
    (previous : Snapshot) (hnd : (keysOf previous).Nodup) :
    ((detect_and_log_changes ts current previous).2.countP
        (fun e => e.change_type == "APPEARED" && e.sku == s) =
      if s ∈ keysOf (currentLookup current) ∧ s ∉ keysOf previous then 1 else 0)
    ∧ ((detect_and_log_changes ts current previous).2.countP
        (fun e => e.change_type == "DISAPPEARED" && e.sku == s) =
      if s ∈ keysOf previous ∧ s ∉ keysOf (currentLookup current) then 1 else 0)
    ∧ ((detect_and_log_changes ts current previous).1.countP
        (fun e => e.sku == s) =
      if priceSignal current previous s then 1 else 0)
    ∧ (∀ e ∈ (detect_and_log_changes ts current previous).1, e.sku = s →
        ∃ pc pv, findVal (currentLookup current) s = some pc ∧
          findVal previous s = some pv ∧
          e.current_price = priceOrZero pc ∧
          e.previous_price = priceOrZero pv ∧
          e.change_amount = priceOrZero pc - priceOrZero pv ∧
          e.change_type = (if priceOrZero pv < priceOrZero pc
            then "PRICE_INCREASE" else "PRICE_DECREASE"))
    ∧ (s ∈ keysOf (currentLookup current) ↔ skuPresentIn current s) := by
  have hndc := nodup_keysOf_currentLookup current
  have hAkey : ∀ k v e, appearedRow ts previous k v = some e → e.sku = k := by
    intro k v e h
    rw [(appearedRow_eq_some ts previous k v e h).1]
  have hDkey : ∀ k v e,
      disappearedRow ts (currentLookup current) k v = some e → e.sku = k := by
    intro k v e h
    rw [(disappearedRow_eq_some ts (currentLookup current) k v e h).1]
  have hPkey : ∀ k v e, priceRow ts previous k v = some e → e.sku = k := by
    intro k v e h
    obtain ⟨prevP, _, _, _, _, he⟩ := priceRow_eq_some ts previous k v e h
    rw [he]
  refine ⟨?_, ?_, ?_, ?_, mem_keysOf_currentLookup current s⟩
  · -- APPEARED count
    show ((currentLookup current).filterMap
          (fun kp => appearedRow ts previous kp.1 kp.2) ++
        previous.filterMap
          (fun kp => disappearedRow ts (currentLookup current) kp.1 kp.2)).countP
        (fun e => e.change_type == "APPEARED" && e.sku == s) = _
    rw [List.countP_append]
    have hD0 : (previous.filterMap
          (fun kp => disappearedRow ts (currentLookup current) kp.1 kp.2)).countP
        (fun e => e.change_type == "APPEARED" && e.sku == s) = 0 := by
      rw [List.countP_eq_zero]
      intro e he
      obtain ⟨kp, _, hfe⟩ := List.mem_filterMap.mp he
      rw [(disappearedRow_eq_some ts (currentLookup current) kp.1 kp.2 e hfe).1]
      simp
    rw [hD0, Nat.add_zero]
    have hcong : ((currentLookup current).filterMap
          (fun kp => appearedRow ts previous kp.1 kp.2)).countP
        (fun e => e.change_type == "APPEARED" && e.sku == s) =
        ((currentLookup current).filterMap
          (fun kp => appearedRow ts previous kp.1 kp.2)).countP
        (fun e => e.sku == s) := by
      apply List.countP_congr
      intro e he
      obtain ⟨kp, _, hfe⟩ := List.mem_filterMap.mp he
      rw [(appearedRow_eq_some ts previous kp.1 kp.2 e hfe).1]
      simp
    rw [hcong]
    cases hv : findVal (currentLookup current) s with
    | none =>
      rw [countP_row_absent _ _ AvailEvent.sku s hAkey
        ((findVal_eq_none_iff _ s).mp hv)]
      have hcond : ¬(s ∈ keysOf (currentLookup current) ∧ s ∉ keysOf previous) :=
        fun hcontra => (findVal_eq_none_iff _ s).mp hv hcontra.1
      rw [if_neg hcond]
    | some v =>
      rw [countP_row_present _ _ AvailEvent.sku s v hndc hAkey hv]
      have hmem : s ∈ keysOf (currentLookup current) :=
        (findVal_isSome_iff _ s).mp (by rw [hv]; rfl)
      unfold appearedRow
      by_cases hb : hasKey previous s = true
      · have hcond : ¬(s ∈ keysOf (currentLookup current) ∧ s ∉ keysOf previous) :=
          fun hcontra => hcontra.2 ((hasKey_iff previous s).mp hb)
        rw [if_pos hb, if_neg hcond]
        simp
      · have hcond : s ∈ keysOf (currentLookup current) ∧ s ∉ keysOf previous :=
          ⟨hmem, fun hcontra => hb ((hasKey_iff previous s).mpr hcontra)⟩
        rw [if_neg hb, if_pos hcond]
        simp
  · -- DISAPPEARED count
    show ((currentLookup current).filterMap
          (fun kp => appearedRow ts previous kp.1 kp.2) ++
        previous.filterMap
          (fun kp => disappearedRow ts (currentLookup current) kp.1 kp.2)).countP
        (fun e => e.change_type == "DISAPPEARED" && e.sku == s) = _
    rw [List.countP_append]
    have hA0 : ((currentLookup current).filterMap
          (fun kp => appearedRow ts previous kp.1 kp.2)).countP
        (fun e => e.change_type == "DISAPPEARED" && e.sku == s) = 0 := by
      rw [List.countP_eq_zero]
      intro e he
      obtain ⟨kp, _, hfe⟩ := List.mem_filterMap.mp he
      rw [(appearedRow_eq_some ts previous kp.1 kp.2 e hfe).1]
      simp
    rw [hA0, Nat.zero_add]
    have hcong : (previous.filterMap
          (fun kp => disappearedRow ts (currentLookup current) kp.1 kp.2)).countP
        (fun e => e.change_type == "DISAPPEARED" && e.sku == s) =
        (previous.filterMap
          (fun kp => disappearedRow ts (currentLookup current) kp.1 kp.2)).countP
        (fun e => e.sku == s) := by
      apply List.countP_congr
      intro e he
      obtain ⟨kp, _, hfe⟩ := List.mem_filterMap.mp he
      rw [(disappearedRow_eq_some ts (currentLookup current) kp.1 kp.2 e hfe).1]
      simp
    rw [hcong]
    cases hv : findVal previous s with
    | none =>
      rw [countP_row_absent _ _ AvailEvent.sku s hDkey
        ((findVal_eq_none_iff previous s).mp hv)]
      have hcond : ¬(s ∈ keysOf previous ∧ s ∉ keysOf (currentLookup current)) :=
        fun hcontra => (findVal_eq_none_iff previous s).mp hv hcontra.1
      rw [if_neg hcond]
    | some v =>
      rw [countP_row_present _ _ AvailEvent.sku s v hnd hDkey hv]
      have hmem : s ∈ keysOf previous :=
        (findVal_isSome_iff previous s).mp (by rw [hv]; rfl)
      unfold disappearedRow
      by_cases hb : hasKey (currentLookup current) s = true
      · have hcond : ¬(s ∈ keysOf previous ∧ s ∉ keysOf (currentLookup current)) :=
          fun hcontra => hcontra.2 ((hasKey_iff _ s).mp hb)
        rw [if_pos hb, if_neg hcond]
        simp
      · have hcond : s ∈ keysOf previous ∧ s ∉ keysOf (currentLookup current) :=
          ⟨hmem, fun hcontra => hb ((hasKey_iff _ s).mpr hcontra)⟩
        rw [if_neg hb, if_pos hcond]
        simp
  · -- price-change count
    show ((currentLookup current).filterMap
          (fun kp => priceRow ts previous kp.1 kp.2)).countP
        (fun e => e.sku == s) = _
    cases hv : findVal (currentLookup current) s with
    | none =>
      rw [countP_row_absent _ _ PriceEvent.sku s hPkey
        ((findVal_eq_none_iff _ s).mp hv)]
      simp [priceSignal, hv]
    | some pc =>
      rw [countP_row_present _ _ PriceEvent.sku s pc hndc hPkey hv]
      unfold priceRow
      cases hw : findVal previous s with
      | none => simp [priceSignal, hv, hw]
      | some pv =>
        by_cases hc : priceOrZero pc ≠ priceOrZero pv ∧
            0 < priceOrZero pc ∧ 0 < priceOrZero pv
        · simp [priceSignal, hv, hw, hc]
        · simp [priceSignal, hv, hw, hc]
  · -- every price row carries the lookup prices and the sign tag
    intro e he hsku
    have he' : e ∈ (currentLookup current).filterMap
        (fun kp => priceRow ts previous kp.1 kp.2) := he
    obtain ⟨kp, hkp, hfe⟩ := List.mem_filterMap.mp he'
    obtain ⟨prevP, hprev, hne, hpos1, hpos2, hrow⟩ :=
      priceRow_eq_some ts previous kp.1 kp.2 e hfe
    have hk : kp.1 = s := by
      rw [hrow] at hsku
      exact hsku
    subst hk
    have hlook : findVal (currentLookup current) kp.1 = some kp.2 := by
      apply findVal_of_mem_nodup _ _ _ hndc
      rw [Prod.mk.eta]
      exact hkp
    refine ⟨kp.2, prevP, hlook, hprev, ?_, ?_, ?_, ?_⟩
    · rw [hrow]
    · rw [hrow]
    · rw [hrow]
    · rw [hrow]
      simp [sub_pos]

/-- Witness for C3 (amended) at the spec's end-to-end scenario:
previous has SKU1 at 899, current has SKU1 at 849 and a new SKU2. -/
theorem detect_changes_events_witness :
    (keysOf [("SKU1",
        (⟨some "SKU1", some "MacBook Air M1", some 899, none⟩ : Product))]).Nodup ∧
      ((detect_and_log_changes "t"
          [⟨some "SKU1", some "MacBook Air M1", some 849, none⟩,
            ⟨some "SKU2", some "iMac M3", some 1299, none⟩]
          [("SKU1", ⟨some "SKU1", some "MacBook Air M1", some 899, none⟩)]).1.countP
          (fun e => e.sku == "SKU1") =
        if priceSignal
            [⟨some "SKU1", some "MacBook Air M1", some 849, none⟩,
              ⟨some "SKU2", some "iMac M3", some 1299, none⟩]
            [("SKU1", ⟨some "SKU1", some "MacBook Air M1", some 899, none⟩)]
            "SKU1"
          then 1 else 0) :=
  ⟨by simp [keysOf],
    (detect_changes_events "t" "SKU1" _ _ (by simp [keysOf])).2.2.1⟩

/-! ## String helpers with Python semantics -/

/-- Python `str.lower()` restricted to ASCII (every string the program
lower-cases is ASCII apart from already-lower-case Unicode punctuation,
which both functions leave unchanged). -/
def toLowerAscii (s : String) : String :=
  ⟨s.data.map (fun c => if 'A' ≤ c ∧ c ≤ 'Z' then Char.ofNat (c.toNat + 32) else c)⟩

/-- Python `str.upper()` restricted to ASCII. -/
def toUpperAscii (s : String) : String :=
  ⟨s.data.map (fun c => if 'a' ≤ c ∧ c ≤ 'z' then Char.ofNat (c.toNat - 32) else c)⟩

/-- Substring occurrence on character lists (`needle in hay`). -/
def hasSubList (needle : List Char) : List Char → Bool
  | [] => needle.isEmpty
  | c :: rest => needle.isPrefixOf (c :: rest) || hasSubList needle rest

/-- Python `sub in s` on strings. -/
def strContains (s sub : String) : Bool := hasSubList sub.data s.data

/-- Python `str.replace` on character lists, fuelled so that the
recursion is structural (each step consumes at least one character, so
`l.length` fuel always suffices): replace every non-overlapping
occurrence, scanning left to right.  Every use in the program has a
non-empty pattern. -/
def replaceListFuel (pat rep : List Char) : Nat → List Char → List Char
  | 0, l => l
  | _ + 1, [] => []
  | fuel + 1, c :: rest =>
      if pat ≠ [] ∧ pat.isPrefixOf (c :: rest) then
        rep ++ replaceListFuel pat rep fuel ((c :: rest).drop pat.length)
      else
        c :: replaceListFuel pat rep fuel rest

/-- Python `str.replace` on character lists. -/
def replaceList (pat rep l : List Char) : List Char :=
  replaceListFuel pat rep l.length l

/-- Python `str.replace` on strings. -/
def strReplace (s pat rep : String) : String :=
  ⟨replaceList pat.data rep.data s.data⟩

/-- Digit list to number. -/
def digitsToNat (ds : List Char) : Nat :=
  ds.foldl (fun n c => n * 10 + (c.toNat - '0'.toNat)) 0

/-- Python `int(str)`: strip surrounding whitespace, optional sign, a
non-empty run of digits; anything else raises (returns `none`). -/
def pyInt (s : String) : Option Int :=
  let t := s.trim.data
  let signAndDigits : Int × List Char :=
    match t with
    | '+' :: rest => (1, rest)
    | '-' :: rest => (-1, rest)
    | _ => (1, t)
  if signAndDigits.2 ≠ [] ∧ signAndDigits.2.all Char.isDigit then
    some (signAndDigits.1 * (digitsToNat signAndDigits.2 : Int))
  else none

/-! ## Variant-ID lookup (`find_variant_id_and_model`, histv7.py lines 241-309) -/

/-- Dict lookup in a string-to-string reference table. -/
def findStr : List (String × String) → String → Option String
  | [], _ => none
  | kv :: t, k => if kv.1 = k then some kv.2 else findStr t k

/-- The Mac composite lookup key
`f"{machine}|{year}|{cpu}|{cpu_cores}|{hd}|{ram}|{gpu}|{colour}|{grade}".lower()`. -/
def macKey (machine year cpu cpu_cores hd ram gpu colour grade : String) : String :=
  toLowerAscii (machine ++ "|" ++ year ++ "|" ++ cpu ++ "|" ++ cpu_cores ++ "|" ++
    hd ++ "|" ++ ram ++ "|" ++ gpu ++ "|" ++ colour ++ "|" ++ grade)

/-- The iPhone/iPad simple lookup key
`f"{machine}|{storage}|{colour}|{grade}".lower()`. -/
def simpleKey (machine storage colour grade : String) : String :=
  toLowerAscii (machine ++ "|" ++ storage ++ "|" ++ colour ++ "|" ++ grade)

/-- The storage normalization of the iPhone/iPad path:
`hd.replace('TB','000').replace('GB','')` when `hd` is non-empty, then
a corrected TB conversion (`int` of the digits before `TB`, times
1000) when `hd` mentions TB. -/
def simpleStorage (hd : String) : String :=
  let storage0 := if hd ≠ "" then strReplace (strReplace hd "TB" "000") "GB" "" else ""
  if strContains (toUpperAscii hd) "TB" then
    match pyInt (strReplace (toUpperAscii hd) "TB" "") with
    | some n => toString (n * 1000)
    | none => hd
  else storage0

/-- `find_variant_id_and_model`: iPhone/iPad machines use the simple
table (exact grade, then the Excellent/Good/Fair sweep, then colour
omitted); Macs use the composite table with the widening sweep: exact
key, then GPU omitted, then Colour omitted, then both omitted, then
CPU-cores omitted; an empty table short-circuits to `('','')`. -/
def find_variant_id_and_model (simple_tbl tbl : List (String × String))
    (machine year cpu cpu_cores hd ram gpu colour grade : String) :
    String × String :=
  if simple_tbl ≠ [] ∧
      (strContains (toLowerAscii machine) "iphone" || strContains (toLowerAscii machine) "ipad") then
    let storage := simpleStorage hd
    match findStr simple_tbl (simpleKey machine storage colour grade) with
    | some vid => (vid, "")
    | none =>
    match findStr simple_tbl (simpleKey machine storage colour "Excellent") with
    | some vid => (vid, "")
    | none =>
    match findStr simple_tbl (simpleKey machine storage colour "Good") with
    | some vid => (vid, "")
    | none =>
    match findStr simple_tbl (simpleKey machine storage colour "Fair") with
    | some vid => (vid, "")
    | none =>
    match findStr simple_tbl (simpleKey machine storage "" grade) with
    | some vid => (vid, "")
    | none => ("", "")
  else if tbl = [] then ("", "")
  else
    match findStr tbl (macKey machine year cpu cpu_cores hd ram gpu colour grade) with
    | some vid => (vid, "")
    | none =>
    match findStr tbl (macKey machine year cpu cpu_cores hd ram "" colour grade) with
    | some vid => (vid, "")
    | none =>
    match findStr tbl (macKey machine year cpu cpu_cores hd ram gpu "" grade) with
    | some vid => (vid, "")
    | none =>
    match findStr tbl (macKey machine year cpu cpu_cores hd ram "" "" grade) with
    | some vid => (vid, "")
    | none =>
    match findStr tbl (macKey machine year cpu "" hd ram gpu colour grade) with
    | some vid => (vid, "")
    | none => ("", "")

/-- C4: for a Mac machine, when the exact composite key and the
GPU-omitted key both miss and the Colour-omitted key hits, the lookup
returns the Variant ID found via the Colour-omitted key, not empty. -/
theorem find_variant_colour_widening (simple_tbl tbl : List (String × String))
    (machine year cpu cpu_cores hd ram gpu colour grade vid : String)
    (hmac : (strContains (toLowerAscii machine) "iphone" ||
      strContains (toLowerAscii machine) "ipad") = false)
    (h1 : findStr tbl (macKey machine year cpu cpu_cores hd ram gpu colour grade) = none)
    (h2 : findStr tbl (macKey machine year cpu cpu_cores hd ram "" colour grade) = none)
    (h3 : findStr tbl (macKey machine year cpu cpu_cores hd ram gpu "" grade) = some vid) :
    find_variant_id_and_model simple_tbl tbl
      machine year cpu cpu_cores hd ram gpu colour grade = (vid, "") := by
  have htbl : tbl ≠ [] := by
    intro h
    rw [h] at h3
    cases h3
  have hcond : ¬(simple_tbl ≠ [] ∧
      (strContains (toLowerAscii machine) "iphone" ||
        strContains (toLowerAscii machine) "ipad") = true) := by
    intro hc
    rw [hmac] at hc
    exact Bool.false_ne_true hc.2
  unfold find_variant_id_and_model
  rw [if_neg hcond, if_neg htbl]
  simp only [h1, h2, h3]

/-- Witness for C4: a table holding only the Colour-omitted key. -/
theorem find_variant_colour_widening_witness :
    find_variant_id_and_model []
      [("macbook pro|2023|m2|10|512|16|16-core||excellent", "V1")]
      "MacBook Pro" "2023" "M2" "10" "512" "16" "16-Core" "Silver" "Excellent" =
      ("V1", "") :=
  find_variant_colour_widening []
    [("macbook pro|2023|m2|10|512|16|16-core||excellent", "V1")]
    "MacBook Pro" "2023" "M2" "10" "512" "16" "16-Core" "Silver" "Excellent" "V1"
    (by decide) (by decide) (by decide) (by decide)

/-! ## Machine-type classifier (`_standardize_machine_type`, histv7.py lines 311-397) -/

/-- Python `\s` (the Unicode spaces beyond these have already been
normalized away by the time the patterns run). -/
def isSpacePy (c : Char) : Bool :=
  c = ' ' || c = '\t' || c = '\n' || c = '\r' || c = '\x0b' || c = '\x0c'

/-- `str(name).replace('‑', '-').replace('\xa0', ' ').lower()`:
normalize the non-breaking hyphen and the non-breaking space, then
lower-case. -/
def normalizeName (name : String) : String :=
  toLowerAscii (strReplace (strReplace name "\u2011" "-") "\u00A0" " ")

/-- Match `(\d+(?:\.\d+)?)` at the head of `cs`, then require
`suffixOk` on the remainder; returns the number group.  The fractional
part is tried greedily first and dropped on failure, mirroring regex
backtracking. -/
def matchSizeAt (suffixOk : List Char → Bool) (cs : List Char) :
    Option (List Char) :=
  let ds := cs.takeWhile Char.isDigit
  if ds.isEmpty then none
  else
    let rest := cs.drop ds.length
    match rest with
    | '.' :: r2 =>
        let fs := r2.takeWhile Char.isDigit
        if ¬fs.isEmpty ∧ suffixOk (r2.drop fs.length) then
          some (ds ++ '.' :: fs)
        else if suffixOk rest then some ds else none
    | _ => if suffixOk rest then some ds else none

/-- `re.search`: try the pattern at every start position, left to
right. -/
def searchSize (suffixOk : List Char → Bool) : List Char → Option (List Char)
  | [] => none
  | c :: rest =>
      match matchSizeAt suffixOk (c :: rest) with
      | some g => some g
      | none => searchSize suffixOk rest

/-- The screen-size extraction: pattern `(\d+(?:\.\d+)?)-inch` first,
then `(\d+(?:\.\d+)?)\s*inch`; the result is `f"{group}-inch"`, or `''`
when neither matches. -/
def screenSizeStr (n : String) : String :=
  match searchSize (fun rest => "-inch".data.isPrefixOf rest) n.data with
  | some g => String.mk g ++ "-inch"
  | none =>
      match searchSize
          (fun rest => "inch".data.isPrefixOf (rest.dropWhile isSpacePy)) n.data with
      | some g => String.mk g ++ "-inch"
      | none => ""

/-- The variant alternation `(pro\s*max|pro|plus|mini)` at one
position; returns the matched text (whitespace included, as
`group(2)` would carry it). -/
def matchIphoneVariantAt (cs : List Char) : Option (List Char) :=
  if "pro".data.isPrefixOf cs then
    let after := cs.drop 3
    let ws := after.takeWhile isSpacePy
    if "max".data.isPrefixOf (after.drop ws.length) then
      some ("pro".data ++ ws ++ "max".data)
    else some "pro".data
  else if "plus".data.isPrefixOf cs then some "plus".data
  else if "mini".data.isPrefixOf cs then some "mini".data
  else none

/-- The pattern `iphone\s*(\d+)\s*(pro\s*max|pro|plus|mini)?` at one
position; returns (model-number digits, variant text or `[]`). -/
def matchIphoneAt (cs : List Char) : Option (List Char × List Char) :=
  if "iphone".data.isPrefixOf cs then
    let after := cs.drop 6
    let afterWs := after.dropWhile isSpacePy
    let ds := afterWs.takeWhile Char.isDigit
    if ds.isEmpty then none
    else
      let after2 := afterWs.drop ds.length
      let afterWs2 := after2.dropWhile isSpacePy
      match matchIphoneVariantAt afterWs2 with
      | some v => some (ds, v)
      | none => some (ds, [])
  else none

/-- `re.search` for the iPhone pattern. -/
def searchIphone : List Char → Option (List Char × List Char)
  | [] => none
  | c :: rest =>
      match matchIphoneAt (c :: rest) with
      | some r => some r
      | none => searchIphone rest

/-- `_standardize_machine_type`: empty names are `Unknown`; otherwise
normalize, extract a screen size, then test the family keywords in
source order (Mac families, then iPad sub-types before bare iPad, then
iPhone), appending the screen size where the family carries one and
injecting the 13-inch default for MacBook Air. -/
def machineType (name : String) : String :=
  if name = "" then "Unknown"
  else
    let n := normalizeName name
    let screen := screenSizeStr n
    if strContains n "macbook air" then
      if screen ≠ "" then "MacBook Air " ++ screen else "MacBook Air 13-inch"
    else if strContains n "macbook pro" then
      if screen ≠ "" then "MacBook Pro " ++ screen else "MacBook Pro"
    else if strContains n "imac" then
      if screen ≠ "" then "iMac " ++ screen else "iMac"
    else if strContains n "mac mini" then "Mac mini"
    else if strContains n "mac studio" then "Mac Studio"
    else if strContains n "mac pro" then "Mac Pro"
    else if strContains n "ipad pro" then
      if screen ≠ "" then "iPad Pro " ++ screen else "iPad Pro"
    else if strContains n "ipad air" then
      if screen ≠ "" then "iPad Air " ++ screen else "iPad Air"
    else if strContains n "ipad mini" then "iPad mini"
    else if strContains n "ipad" then
      if screen ≠ "" then "iPad " ++ screen else "iPad"
    else if strContains n "iphone" then
      match searchIphone n.data with
      | some (num, v) =>
          if v ≠ [] then
            "iPhone " ++ String.mk num ++ " " ++
              strReplace (strReplace (strReplace (strReplace (String.mk v)
                "pro max" "Pro Max") "pro" "Pro") "plus" "Plus") "mini" "mini"
          else "iPhone " ++ String.mk num
      | none => "iPhone"
    else "Unknown"

/-! ### Characters of classifier outputs -/

theorem hasSubList_mem (needle : List Char) :
    ∀ hay : List Char, hasSubList needle hay = true → ∀ c ∈ needle, c ∈ hay := by
  intro hay
  induction hay with
  | nil =>
    intro h c hc
    simp only [hasSubList, List.isEmpty_iff] at h
    subst h
    cases hc
  | cons a t ih =>
    intro h c hc
    simp only [hasSubList, Bool.or_eq_true] at h
    rcases h with hpre | hrest
    · exact (List.isPrefixOf_iff_prefix.mp hpre).subset hc
    · exact List.mem_cons_of_mem _ (ih hrest c hc)

/-- A string without a hyphen cannot contain `-inch`. -/
theorem not_contains_inch (s : String) (h : '-' ∉ s.data) :
    strContains s "-inch" = false := by
  cases hb : strContains s "-inch"
  · rfl
  · exact absurd (hasSubList_mem _ _ (by simpa [strContains] using hb) '-' (by decide)) h

theorem replaceListFuel_not_mem (pat rep : List Char) (c : Char) (hrep : c ∉ rep) :
    ∀ fuel (l : List Char), c ∉ l → c ∉ replaceListFuel pat rep fuel l := by
  intro fuel
  induction fuel with
  | zero => intro l hcl; simpa [replaceListFuel] using hcl
  | succ fuel ih =>
    intro l hcl
    match l with
    | [] => simp [replaceListFuel]
    | a :: rest =>
      simp only [replaceListFuel]
      by_cases h : pat ≠ [] ∧ pat.isPrefixOf (a :: rest)
      · rw [if_pos h]
        intro hmem
        rcases List.mem_append.mp hmem with hm | hm
        · exact hrep hm
        · exact ih _ (fun hx => hcl (List.mem_of_mem_drop hx)) hm
      · rw [if_neg h]
        intro hmem
        rcases List.mem_cons.mp hmem with rfl | hm
        · exact hcl (List.mem_cons_self _ _)
        · exact ih rest (fun hx => hcl (List.mem_cons_of_mem _ hx)) hm

theorem strReplace_not_mem (s pat rep : String) (c : Char)
    (hrep : c ∉ rep.data) (hs : c ∉ s.data) :
    c ∉ (strReplace s pat rep).data :=
  replaceListFuel_not_mem pat.data rep.data c hrep s.data.length s.data hs

theorem matchIphoneVariantAt_no_dash (cs v : List Char)
    (h : matchIphoneVariantAt cs = some v) : '-' ∉ v := by
  unfold matchIphoneVariantAt at h
  split at h
  · dsimp only at h
    split at h
    · injection h with h
      subst h
      intro hmem
      rcases List.mem_append.mp hmem with hm | hm
      · rcases List.mem_append.mp hm with hm2 | hm2
        · exact absurd hm2 (by decide)
        · exact absurd (List.mem_takeWhile_imp hm2) (by decide)
      · exact absurd hm (by decide)
    · injection h with h
      subst h
      decide
  · split at h
    · injection h with h
      subst h
      decide
    · split at h
      · injection h with h
        subst h
        decide
      · cases h

theorem matchIphoneAt_no_dash (cs num v : List Char)
    (h : matchIphoneAt cs = some (num, v)) : '-' ∉ num ∧ '-' ∉ v := by
  unfold matchIphoneAt at h
  split at h
  · dsimp only at h
    split at h
    · cases h
    · split at h
      · rename_i v' hv'
        injection h with h
        obtain ⟨rfl, rfl⟩ := Prod.mk.injEq .. |>.mp h
        constructor
        · intro hm
          exact absurd (List.mem_takeWhile_imp hm) (by decide)
        · exact matchIphoneVariantAt_no_dash _ _ hv'
      · injection h with h
        obtain ⟨rfl, rfl⟩ := Prod.mk.injEq .. |>.mp h
        constructor
        · intro hm
          exact absurd (List.mem_takeWhile_imp hm) (by decide)
        · intro hm
          cases hm
  · cases h

theorem searchIphone_no_dash (cs num v : List Char)
    (h : searchIphone cs = some (num, v)) : '-' ∉ num ∧ '-' ∉ v := by
  induction cs with
  | nil => cases h
  | cons a t ih =>
    simp only [searchIphone] at h
    split at h
    · rename_i r hr
      obtain ⟨num', v'⟩ := r
      injection h with h
      obtain ⟨rfl, rfl⟩ := Prod.mk.injEq .. |>.mp h.symm
      exact matchIphoneAt_no_dash _ _ _ hr
    · exact ih h

/-- The iPhone branch outputs never contain `-inch` (no hyphen at
all). -/
theorem iphone_result_no_inch (num v : List Char)
    (hnum : '-' ∉ num) (hv : '-' ∉ v) :
    strContains ("iPhone " ++ String.mk num ++ " " ++
        strReplace (strReplace (strReplace (strReplace (String.mk v)
          "pro max" "Pro Max") "pro" "Pro") "plus" "Plus") "mini" "mini")
        "-inch" = false ∧
      strContains ("iPhone " ++ String.mk num) "-inch" = false := by
  have hvs : '-' ∉ (strReplace (strReplace (strReplace (strReplace (String.mk v)
      "pro max" "Pro Max") "pro" "Pro") "plus" "Plus") "mini" "mini").data := by
    apply strReplace_not_mem _ _ _ _ (by decide)
    apply strReplace_not_mem _ _ _ _ (by decide)
    apply strReplace_not_mem _ _ _ _ (by decide)
    apply strReplace_not_mem _ _ _ _ (by decide)
    exact hv
  constructor
  · apply not_contains_inch
    intro hmem
    simp only [String.data_append] at hmem
    rcases List.mem_append.mp hmem with hm | hm
    · rcases List.mem_append.mp hm with hm2 | hm2
      · rcases List.mem_append.mp hm2 with hm3 | hm3
        · exact absurd hm3 (by decide)
        · exact hnum hm3
      · exact absurd hm2 (by decide)
    · exact hvs hm
  · apply not_contains_inch
    intro hmem
    simp only [String.data_append] at hmem
    rcases List.mem_append.mp hmem with hm | hm
    · exact absurd hm (by decide)
    · exact hnum hm

/-! ### Classifier claims -/

/-- C7 counterexample: "iMac iPad Pro 11-inch" contains both "iPad Pro"
and "11-inch" yet classifies as "iMac 11-inch", because the iMac
keyword is tested first. -/
theorem machine_type_precedence_counterexample :
    strContains "iMac iPad Pro 11-inch" "iPad Pro" = true ∧
      strContains "iMac iPad Pro 11-inch" "11-inch" = true ∧
      machineType "iMac iPad Pro 11-inch" = "iMac 11-inch" ∧
      machineType "iMac iPad Pro 11-inch" ≠ "iPad Pro 11-inch" := by
  refine ⟨by decide, by decide, by decide, by decide⟩

/-- C7 amended: a name whose normalization contains "ipad pro", contains
no Mac-family keyword, and whose first detected screen size is 11-inch
classifies as "iPad Pro 11-inch" (in particular never as generic
"iPad 11-inch"). -/
theorem machine_type_ipad_pro_precedence (name : String)
    (hpro : strContains (normalizeName name) "ipad pro" = true)
    (hmba : strContains (normalizeName name) "macbook air" = false)
    (hmbp : strContains (normalizeName name) "macbook pro" = false)
    (himac : strContains (normalizeName name) "imac" = false)
    (hmm : strContains (normalizeName name) "mac mini" = false)
    (hms : strContains (normalizeName name) "mac studio" = false)
    (hmp : strContains (normalizeName name) "mac pro" = false)
    (hsize : screenSizeStr (normalizeName name) = "11-inch") :
    machineType name = "iPad Pro 11-inch" := by
  have hname : name ≠ "" := by
    intro h
    rw [h] at hpro
    exact absurd hpro (by decide)
  unfold machineType
  rw [if_neg hname]
  simp [hpro, hmba, hmbp, himac, hmm, hms, hmp, hsize]

/-- Witness for C7 (amended) at a concrete iPad Pro name. -/
theorem machine_type_ipad_pro_precedence_witness :
    machineType "iPad Pro 11-inch (M4)" = "iPad Pro 11-inch" :=
  machine_type_ipad_pro_precedence "iPad Pro 11-inch (M4)"
    (by decide) (by decide) (by decide) (by decide)
    (by decide) (by decide) (by decide) (by decide)

/-- C10: when no screen size is detected, a MacBook Air name gets the
injected default "MacBook Air 13-inch", and every other name classifies
without any "-inch" suffix. -/
theorem machine_type_air_default (name : String)
    (hsize : screenSizeStr (normalizeName name) = "") :
    (strContains (normalizeName name) "macbook air" = true →
      machineType name = "MacBook Air 13-inch") ∧
    (strContains (normalizeName name) "macbook air" = false →
      strContains (machineType name) "-inch" = false) := by
  constructor
  · intro hair
    have hname : name ≠ "" := by
      intro h
      rw [h] at hair
      exact absurd hair (by decide)
    unfold machineType
    rw [if_neg hname]
    simp [hair, hsize]
  · intro hair
    by_cases hname : name = ""
    · rw [hname]
      decide
    · by_cases h2 : strContains (normalizeName name) "macbook pro" = true
      · have hres : machineType name = "MacBook Pro" := by
          unfold machineType
          rw [if_neg hname]
          simp [hair, h2, hsize]
        rw [hres]
        decide
      · by_cases h3 : strContains (normalizeName name) "imac" = true
        · have hres : machineType name = "iMac" := by
            unfold machineType
            rw [if_neg hname]
            simp [hair, h2, h3, hsize]
          rw [hres]
          decide
        · by_cases h4 : strContains (normalizeName name) "mac mini" = true
          · have hres : machineType name = "Mac mini" := by
              unfold machineType
              rw [if_neg hname]
              simp [hair, h2, h3, h4, hsize]
            rw [hres]
            decide
          · by_cases h5 : strContains (normalizeName name) "mac studio" = true
            · have hres : machineType name = "Mac Studio" := by
                unfold machineType
                rw [if_neg hname]
                simp [hair, h2, h3, h4, h5, hsize]
              rw [hres]
              decide
            · by_cases h6 : strContains (normalizeName name) "mac pro" = true
              · have hres : machineType name = "Mac Pro" := by
                  unfold machineType
                  rw [if_neg hname]
                  simp [hair, h2, h3, h4, h5, h6, hsize]
                rw [hres]
                decide
              · by_cases h7 : strContains (normalizeName name) "ipad pro" = true
                · have hres : machineType name = "iPad Pro" := by
                    unfold machineType
                    rw [if_neg hname]
                    simp [hair, h2, h3, h4, h5, h6, h7, hsize]
                  rw [hres]
                  decide
                · by_cases h8 : strContains (normalizeName name) "ipad air" = true
                  · have hres : machineType name = "iPad Air" := by
                      unfold machineType
                      rw [if_neg hname]
                      simp [hair, h2, h3, h4, h5, h6, h7, h8, hsize]
                    rw [hres]
                    decide
                  · by_cases h9 : strContains (normalizeName name) "ipad mini" = true
                    · have hres : machineType name = "iPad mini" := by
                        unfold machineType
                        rw [if_neg hname]
                        simp [hair, h2, h3, h4, h5, h6, h7, h8, h9, hsize]
                      rw [hres]
                      decide
                    · by_cases h10 : strContains (normalizeName name) "ipad" = true
                      · have hres : machineType name = "iPad" := by
                          unfold machineType
                          rw [if_neg hname]
                          simp [hair, h2, h3, h4, h5, h6, h7, h8, h9, h10, hsize]
                        rw [hres]
                        decide
                      · by_cases h11 : strContains (normalizeName name) "iphone" = true
                        · cases hsi : searchIphone (normalizeName name).data with
                          | none =>
                            have hres : machineType name = "iPhone" := by
                              unfold machineType
                              rw [if_neg hname]
                              simp [hair, h2, h3, h4, h5, h6, h7, h8, h9, h10,
                                h11, hsi, hsize]
                            rw [hres]
                            decide
                          | some r =>
                            obtain ⟨num, v⟩ := r
                            obtain ⟨hnum, hv⟩ := searchIphone_no_dash _ _ _ hsi
                            by_cases hvne : v = []
                            · have hres : machineType name =
                                  "iPhone " ++ String.mk num := by
                                unfold machineType
                                rw [if_neg hname]
                                simp [hair, h2, h3, h4, h5, h6, h7, h8, h9, h10,
                                  h11, hsi, hvne, hsize]
                              rw [hres]
                              exact (iphone_result_no_inch num v hnum hv).2
                            · have hres : machineType name =
                                  "iPhone " ++ String.mk num ++ " " ++
                                    strReplace (strReplace (strReplace (strReplace
                                      (String.mk v) "pro max" "Pro Max")
                                      "pro" "Pro") "plus" "Plus") "mini" "mini" := by
                                unfold machineType
                                rw [if_neg hname]
                                simp [hair, h2, h3, h4, h5, h6, h7, h8, h9, h10,
                                  h11, hsi, hvne, hsize]
                              rw [hres]
                              exact (iphone_result_no_inch num v hnum hv).1
                        · have hres : machineType name = "Unknown" := by
                            unfold machineType
                            rw [if_neg hname]
                            simp [hair, h2, h3, h4, h5, h6, h7, h8, h9, h10,
                              h11, hsize]
                          rw [hres]
                          decide

/-- Witness for C10: both conjuncts at concrete names. -/
theorem machine_type_air_default_witness :
    (strContains (normalizeName "MacBook Air M2") "macbook air" = true →
      machineType "MacBook Air M2" = "MacBook Air 13-inch") ∧
    (strContains (normalizeName "MacBook Air M2") "macbook air" = false →
      strContains (machineType "MacBook Air M2") "-inch" = false) :=
  machine_type_air_default "MacBook Air M2" (by decide)

/-! ## Field standardizer helpers (histv7.py lines 516-830) -/

/-- `re.search(r'(\d+)', s)`: first maximal digit run. -/
def searchDigits : List Char → Option (List Char)
  | [] => none
  | c :: rest =>
      if c.isDigit then some ((c :: rest).takeWhile Char.isDigit)
      else searchDigits rest

/-- `re.search(r'(\d+)(GB|TB)', s)` at one position. -/
def matchStorageAt (cs : List Char) : Option (List Char × String) :=
  let ds := cs.takeWhile Char.isDigit
  if ds.isEmpty then none
  else
    let rest := cs.drop ds.length
    if "GB".data.isPrefixOf rest then some (ds, "GB")
    else if "TB".data.isPrefixOf rest then some (ds, "TB")
    else none

/-- `re.search(r'(\d+)(GB|TB)', s)`. -/
def searchStorage : List Char → Option (List Char × String)
  | [] => none
  | c :: rest =>
      match matchStorageAt (c :: rest) with
      | some r => some r
      | none => searchStorage rest

/-- `re.search(r'(\d+)\s*(GB|TB)', s, re.IGNORECASE)` at one position,
on an already lower-cased string; the unit is reported upper-cased as
`group(2).upper()` would be. -/
def matchStorageNameAt (cs : List Char) : Option (List Char × String) :=
  let ds := cs.takeWhile Char.isDigit
  if ds.isEmpty then none
  else
    let rest := (cs.drop ds.length).dropWhile isSpacePy
    if "gb".data.isPrefixOf rest then some (ds, "GB")
    else if "tb".data.isPrefixOf rest then some (ds, "TB")
    else none

/-- `re.search(r'(\d+)\s*(GB|TB)', s, re.IGNORECASE)` on a lower-cased
string. -/
def searchStorageName : List Char → Option (List Char × String)
  | [] => none
  | c :: rest =>
      match matchStorageNameAt (c :: rest) with
      | some r => some r
      | none => searchStorageName rest

/-- Python `float(str)` for plain decimal literals (optional sign,
digits, optional fractional part).  The program only ever feeds it
digit strings or raw storage text; exponent and special forms are out
of scope and map to `none` like any other unparsable text. -/
def pyFloat (s : String) : Option ℚ :=
  let t := s.trim.data
  let signBody : ℚ × List Char :=
    match t with
    | '+' :: r => (1, r)
    | '-' :: r => (-1, r)
    | _ => (1, t)
  let ip := signBody.2.takeWhile Char.isDigit
  let rest := signBody.2.drop ip.length
  match rest with
  | [] => if ip ≠ [] then some (signBody.1 * (digitsToNat ip : ℚ)) else none
  | '.' :: fp =>
      if fp.all Char.isDigit ∧ (ip ≠ [] ∨ fp ≠ []) then
        some (signBody.1 *
          ((digitsToNat ip : ℚ) + (digitsToNat fp : ℚ) / (10 ^ fp.length)))
      else none
  | _ => none

/-- Decimal digits of a fraction `num/den` (with `num < den`), fuelled;
the fractions reaching this point terminate well within the fuel. -/
def fracDigits (den : Nat) : Nat → Nat → List Char
  | 0, _ => []
  | _ + 1, 0 => []
  | fuel + 1, num =>
      let num10 := num * 10
      Char.ofNat (num10 / den + 48) :: fracDigits den fuel (num10 % den)

/-- Decimal rendering of a non-integer rational (the `str(float)` of
the storage formatter's fallback branch). -/
def ratDecimalString (q : ℚ) : String :=
  let sign := if q < 0 then "-" else ""
  let n := q.num.natAbs
  let d := q.den
  sign ++ toString (n / d) ++ "." ++ String.mk (fracDigits d 30 (n % d))

/-- `_standardize_storage_format`: empty stays empty; unparsable text
passes through; exact multiples of 1000 at or above 1000 become
`<n>TB`; other integers render bare; non-integers render as decimals. -/
def standardize_storage_format (storage_gb : String) : String :=
  if storage_gb = "" then ""
  else
    match pyFloat storage_gb with
    | none => storage_gb
    | some q =>
        if 1000 ≤ q ∧ q.den = 1 ∧ q.num % 1000 = 0 then
          toString (q.num / 1000) ++ "TB"
        else if q.den = 1 then toString q.num
        else ratDecimalString q

/-- The chip-to-year table of `_extract_year_from_chip`. -/
def chipYears : List (String × String) :=
  [("M1", "2020"), ("M1 Pro", "2021"), ("M1 Max", "2021"),
   ("M1 Ultra", "2022"), ("M2", "2022"), ("M2 Pro", "2023"),
   ("M2 Max", "2023"), ("M2 Ultra", "2023"), ("M3", "2023"),
   ("M3 Pro", "2023"), ("M3 Max", "2023"), ("M3 Ultra", "2025"),
   ("M4", "2024"), ("M4 Pro", "2024"), ("M4 Max", "2024")]

/-- `_extract_year_from_chip`. -/
def extract_year_from_chip (chip : String) : String :=
  if chip = "" then "" else (findStr chipYears chip).getD ""

/-- The colour canonicalization table of `_standardize_colour`. -/
def colourMapping : List (String × String) :=
  [("space grey", "Space Grey"), ("space gray", "Space Grey"),
   ("silver", "Silver"), ("gold", "Gold"), ("rose gold", "Rose Gold"),
   ("midnight", "Midnight"), ("starlight", "Starlight"), ("blue", "Blue"),
   ("sky blue", "Sky Blue"), ("green", "Green"), ("pink", "Pink"),
   ("purple", "Purple"), ("yellow", "Yellow"), ("orange", "Orange"),
   ("red", "Red")]

/-- `_standardize_colour`: strip, canonicalize known colours, pass
unknown colours through stripped. -/
def standardize_colour (color : String) : String :=
  if color = "" then ""
  else
    let c := color.trim
    (findStr colourMapping (toLowerAscii c)).getD c

/-- The ordered colour patterns of `_extract_colour_from_name`. -/
def colourPatterns : List (String × String) :=
  [("natural titanium", "Natural Titanium"), ("blue titanium", "Blue Titanium"),
   ("white titanium", "White Titanium"), ("black titanium", "Black Titanium"),
   ("desert titanium", "Desert Titanium"), ("space black", "Space Black"),
   ("deep purple", "Deep Purple"), ("sierra blue", "Sierra Blue"),
   ("alpine green", "Alpine Green"), ("space grey", "Space Grey"),
   ("space gray", "Space Grey"), ("midnight", "Midnight"),
   ("starlight", "Starlight"), ("product red", "Red"), ("(product)red", "Red"),
   ("rose gold", "Rose Gold"), ("sky blue", "Sky Blue"),
   ("ultramarine", "Ultramarine"), ("silver", "Silver"), ("gold", "Gold"),
   ("blue", "Blue"), ("green", "Green"), ("pink", "Pink"),
   ("purple", "Purple"), ("yellow", "Yellow"), ("orange", "Orange"),
   ("red", "Red"), ("teal", "Teal"), ("white", "White"), ("black", "Black")]

/-- `_extract_colour_from_name`: first listed pattern occurring in the
lower-cased name wins; none gives `''`. -/
def extract_colour_from_name (name : String) : String :=
  if name = "" then ""
  else
    let nl := toLowerAscii name
    ((colourPatterns.find? (fun pc => strContains nl pc.1)).map
      (fun pc => pc.2)).getD ""

/-! ### Model-number lookup tables and name scanners -/

/-- `IPAD_MODEL_NUMBERS`: (device type, screen size, chip/generation,
connectivity) to Apple model number. -/
def IPAD_MODEL_NUMBERS : List ((String × String × String × String) × String) :=
  [(("ipad pro", "13", "m5", "wifi"), "A3325"),
   (("ipad pro", "13", "m5", "cellular"), "A3326"),
   (("ipad pro", "11", "m5", "wifi"), "A3323"),
   (("ipad pro", "11", "m5", "cellular"), "A3324"),
   (("ipad pro", "13", "m4", "wifi"), "A2925"),
   (("ipad pro", "13", "m4", "cellular"), "A2926"),
   (("ipad pro", "11", "m4", "wifi"), "A2836"),
   (("ipad pro", "11", "m4", "cellular"), "A2837"),
   (("ipad pro", "12.9", "6th", "wifi"), "A2436"),
   (("ipad pro", "12.9", "6th", "cellular"), "A2437"),
   (("ipad pro", "12.9", "m2", "wifi"), "A2436"),
   (("ipad pro", "12.9", "m2", "cellular"), "A2437"),
   (("ipad pro", "11", "4th", "wifi"), "A2759"),
   (("ipad pro", "11", "4th", "cellular"), "A2761"),
   (("ipad pro", "11", "m2", "wifi"), "A2759"),
   (("ipad pro", "11", "m2", "cellular"), "A2761"),
   (("ipad pro", "12.9", "5th", "wifi"), "A2378"),
   (("ipad pro", "12.9", "5th", "cellular"), "A2461"),
   (("ipad pro", "12.9", "m1", "wifi"), "A2378"),
   (("ipad pro", "12.9", "m1", "cellular"), "A2461"),
   (("ipad pro", "11", "3rd", "wifi"), "A2377"),
   (("ipad pro", "11", "3rd", "cellular"), "A2459"),
   (("ipad pro", "11", "m1", "wifi"), "A2377"),
   (("ipad pro", "11", "m1", "cellular"), "A2459"),
   (("ipad air", "13", "m3", "wifi"), "A3268"),
   (("ipad air", "13", "m3", "cellular"), "A3269"),
   (("ipad air", "11", "m3", "wifi"), "A3266"),
   (("ipad air", "11", "m3", "cellular"), "A3267"),
   (("ipad air", "13", "m2", "wifi"), "A2898"),
   (("ipad air", "13", "m2", "cellular"), "A2899"),
   (("ipad air", "11", "m2", "wifi"), "A2902"),
   (("ipad air", "11", "m2", "cellular"), "A2903"),
   (("ipad air", "10.9", "5th", "wifi"), "A2588"),
   (("ipad air", "10.9", "5th", "cellular"), "A2589"),
   (("ipad air", "10.9", "m1", "wifi"), "A2588"),
   (("ipad air", "10.9", "m1", "cellular"), "A2589"),
   (("ipad air", "", "5th", "wifi"), "A2588"),
   (("ipad air", "", "5th", "cellular"), "A2589"),
   (("ipad air", "", "m1", "wifi"), "A2588"),
   (("ipad air", "", "m1", "cellular"), "A2589"),
   (("ipad mini", "", "6th", "wifi"), "A2567"),
   (("ipad mini", "", "6th", "cellular"), "A2568"),
   (("ipad mini", "", "6", "wifi"), "A2567"),
   (("ipad mini", "", "6", "cellular"), "A2568"),
   (("ipad mini", "", "a17", "wifi"), "A2993"),
   (("ipad mini", "", "a17", "cellular"), "A2995")]

/-- `IPHONE_MODEL_NUMBERS`: (model token, variant) to Apple model
number. -/
def IPHONE_MODEL_NUMBERS : List ((String × String) × String) :=
  [(("17", "pro max"), "A3526"), (("17", "pro"), "A3523"), (("17", ""), "A3520"),
   (("air", ""), "A3517"), (("16e", ""), "A3409"),
   (("16", "pro max"), "A3296"), (("16", "pro"), "A3293"),
   (("16", "plus"), "A3290"), (("16", ""), "A3287"),
   (("15", "pro max"), "A3106"), (("15", "pro"), "A3102"),
   (("15", "plus"), "A3094"), (("15", ""), "A3090"),
   (("14", "pro max"), "A2894"), (("14", "pro"), "A2890"),
   (("14", "plus"), "A2886"), (("14", ""), "A2882"),
   (("se", "3rd"), "A2783"), (("se", ""), "A2783"),
   (("13", "pro max"), "A2643"), (("13", "pro"), "A2638"),
   (("13", "mini"), "A2628"), (("13", ""), "A2633"),
   (("12", "pro max"), "A2411"), (("12", "pro"), "A2407"),
   (("12", "mini"), "A2399"), (("12", ""), "A2403"),
   (("se", "2nd"), "A2296"),
   (("11", "pro max"), "A2218"), (("11", "pro"), "A2215"),
   (("11", ""), "A2221")]

/-- Dict lookup keyed by the iPad 4-tuple. -/
def findIpad (k : String × String × String × String) : Option String :=
  (IPAD_MODEL_NUMBERS.find? (fun e => decide (e.1 = k))).map (fun e => e.2)

/-- Dict lookup keyed by the iPhone pair. -/
def findIphone (k : String × String) : Option String :=
  (IPHONE_MODEL_NUMBERS.find? (fun e => decide (e.1 = k))).map (fun e => e.2)

/-- `re.search(r'(\d+(?:\.\d+)?)-?inch', s)`: the screen-size number of
the iPad model extraction (hyphen optional, group is the number only). -/
def searchSizeIpad (cs : List Char) : Option (List Char) :=
  searchSize (fun rest =>
    "-inch".data.isPrefixOf rest || "inch".data.isPrefixOf rest) cs

/-- `re.search(r'\(m(\d+)\)', s)` at one position. -/
def matchParenMAt : List Char → Option (List Char)
  | '(' :: 'm' :: rest =>
      let ds := rest.takeWhile Char.isDigit
      if ds.isEmpty then none
      else if ")".data.isPrefixOf (rest.drop ds.length) then some ds else none
  | _ => none

/-- `re.search(r'\(m(\d+)\)', s)`. -/
def searchParenM : List Char → Option (List Char)
  | [] => none
  | c :: rest =>
      match matchParenMAt (c :: rest) with
      | some r => some r
      | none => searchParenM rest

/-- `re.search(r'\(a(\d+)', s)` at one position. -/
def matchParenAAt : List Char → Option (List Char)
  | '(' :: 'a' :: rest =>
      let ds := rest.takeWhile Char.isDigit
      if ds.isEmpty then none else some ds
  | _ => none

/-- `re.search(r'\(a(\d+)', s)`. -/
def searchParenA : List Char → Option (List Char)
  | [] => none
  | c :: rest =>
      match matchParenAAt (c :: rest) with
      | some r => some r
      | none => searchParenA rest

/-- `re.search(r'(\d+)(?:st|nd|rd|th)\s*gen', s)` at one position. -/
def matchGenAt (cs : List Char) : Option (List Char) :=
  let ds := cs.takeWhile Char.isDigit
  if ds.isEmpty then none
  else
    let rest := cs.drop ds.length
    if "st".data.isPrefixOf rest || "nd".data.isPrefixOf rest ||
        "rd".data.isPrefixOf rest || "th".data.isPrefixOf rest then
      if "gen".data.isPrefixOf ((rest.drop 2).dropWhile isSpacePy) then some ds
      else none
    else none

/-- `re.search(r'(\d+)(?:st|nd|rd|th)\s*gen', s)`. -/
def searchGen : List Char → Option (List Char)
  | [] => none
  | c :: rest =>
      match matchGenAt (c :: rest) with
      | some r => some r
      | none => searchGen rest

/-- `re.search(r'ipad\s+mini\s+(\d+)', s)` at one position. -/
def matchIpadMiniAt (cs : List Char) : Option (List Char) :=
  if "ipad".data.isPrefixOf cs then
    let r1 := cs.drop 4
    let ws1 := r1.takeWhile isSpacePy
    if ws1.isEmpty then none
    else if "mini".data.isPrefixOf (r1.drop ws1.length) then
      let r2 := (r1.drop ws1.length).drop 4
      let ws2 := r2.takeWhile isSpacePy
      if ws2.isEmpty then none
      else
        let ds := (r2.drop ws2.length).takeWhile Char.isDigit
        if ds.isEmpty then none else some ds
    else none
  else none

/-- `re.search(r'ipad\s+mini\s+(\d+)', s)`. -/
def searchIpadMini : List Char → Option (List Char)
  | [] => none
  | c :: rest =>
      match matchIpadMiniAt (c :: rest) with
      | some r => some r
      | none => searchIpadMini rest

/-- `re.search(r'iphone\s*(\d+)', s)` at one position. -/
def matchIphoneNumAt (cs : List Char) : Option (List Char) :=
  if "iphone".data.isPrefixOf cs then
    let ds := ((cs.drop 6).dropWhile isSpacePy).takeWhile Char.isDigit
    if ds.isEmpty then none else some ds
  else none

/-- `re.search(r'iphone\s*(\d+)', s)`. -/
def searchIphoneNum : List Char → Option (List Char)
  | [] => none
  | c :: rest =>
      match matchIphoneNumAt (c :: rest) with
      | some r => some r
      | none => searchIphoneNum rest

/-- `_extract_model_info`: the Apple model number for iPads (4-tuple
lookup, retried without screen size) and iPhones (SE / Air / 16e
special cases, then the numbered-model pattern); Macs yield `''`. -/
def extract_model_info (name machine_type : String) : String :=
  if name = "" then ""
  else
    let n := normalizeName name
    if strContains (toLowerAscii machine_type) "ipad" then
      let device_type :=
        if strContains n "ipad pro" then "ipad pro"
        else if strContains n "ipad air" then "ipad air"
        else if strContains n "ipad mini" then "ipad mini"
        else "ipad"
      let screen_size :=
        match searchSizeIpad n.data with
        | some g => String.mk g
        | none => ""
      let chip_gen :=
        match searchParenM n.data with
        | some ds => "m" ++ String.mk ds
        | none =>
          match searchGen n.data with
          | some ds => String.mk ds ++ "th"
          | none =>
            match searchParenA n.data with
            | some ds => "a" ++ String.mk ds
            | none =>
              match searchIpadMini n.data with
              | some ds => String.mk ds
              | none => ""
      let connectivity :=
        if strContains n "cellular" || strContains n "wi-fi + cellular" ||
            strContains n "wi-fi+cellular" then "cellular" else "wifi"
      match findIpad (device_type, screen_size, chip_gen, connectivity) with
      | some m => m
      | none =>
          match findIpad (device_type, "", chip_gen, connectivity) with
          | some m => m
          | none => ""
    else if strContains (toLowerAscii machine_type) "iphone" then
      if strContains n "iphone se" then
        let key :=
          match searchGen n.data with
          | some ds =>
              if String.mk ds = "3" then ("se", String.mk ds ++ "rd")
              else ("se", String.mk ds ++ "nd")
          | none => ("se", "")
        (findIphone key).getD ""
      else if strContains n "iphone air" then (findIphone ("air", "")).getD ""
      else if strContains n "iphone 16e" then (findIphone ("16e", "")).getD ""
      else
        match searchIphone n.data with
        | some (num, v) =>
            let variant := strReplace (String.mk v).trim "  " " "
            (findIphone (String.mk num, variant)).getD ""
        | none => ""
    else ""

/-- The iPhone generation-to-year table of `_extract_year_from_model`. -/
def iphoneYears : List (String × String) :=
  [("17", "2025"), ("16", "2024"), ("15", "2023"), ("14", "2022"),
   ("13", "2021"), ("12", "2020"), ("11", "2019")]

/-- The iPad model-number-to-year table of `_extract_year_from_model`. -/
def ipadModelYears : List (String × String) :=
  [("A3325", "2025"), ("A3326", "2025"), ("A3323", "2025"), ("A3324", "2025"),
   ("A2925", "2024"), ("A2926", "2024"), ("A2836", "2024"), ("A2837", "2024"),
   ("A2436", "2022"), ("A2437", "2022"), ("A2759", "2022"), ("A2761", "2022"),
   ("A2378", "2021"), ("A2461", "2021"), ("A2377", "2021"), ("A2459", "2021"),
   ("A3268", "2025"), ("A3269", "2025"), ("A3266", "2025"), ("A3267", "2025"),
   ("A2898", "2024"), ("A2899", "2024"), ("A2902", "2024"), ("A2903", "2024"),
   ("A2588", "2022"), ("A2589", "2022"),
   ("A2567", "2021"), ("A2568", "2021"),
   ("A2993", "2024"), ("A2995", "2024")]

/-- `_extract_year_from_model`: iPhone year from the numbered-model
pattern (falling back to the SE/Air special cases), then iPad year from
the model number; no match yields `''`. -/
def extract_year_from_model (machine_type model_number : String) : String :=
  if machine_type = "" then ""
  else
    let ml := toLowerAscii machine_type
    let viaIphone : Option String :=
      if strContains ml "iphone" then
        match searchIphoneNum ml.data with
        | some ds => some ((findStr iphoneYears (String.mk ds)).getD "")
        | none =>
            if strContains ml "se" then some "2022"
            else if strContains ml "air" then some "2025"
            else none
      else none
    match viaIphone with
    | some y => y
    | none =>
        if strContains ml "ipad" then
          match findStr ipadModelYears model_number with
          | some y => y
          | none => ""
        else ""

/-! ## Record standardizer (`standardize_apple_product`, histv7.py lines 832-953) -/

/-- Split a character list at every occurrence of a separator. -/
def splitOnChar (sep : Char) : List Char → List (List Char)
  | [] => [[]]
  | c :: rest =>
      let r := splitOnChar sep rest
      if c = sep then [] :: r
      else
        match r with
        | h :: t => (c :: h) :: t
        | [] => [[c]]

/-- A digit field of bounded width with a value range. -/
def digitsVal (cs : List Char) (lo hi maxLen : Nat) : Option Nat :=
  if cs ≠ [] ∧ cs.length ≤ maxLen ∧ cs.all Char.isDigit then
    let v := digitsToNat cs
    if lo ≤ v ∧ v ≤ hi then some v else none
  else none

def isLeapYear (y : Nat) : Bool :=
  (y % 4 = 0 && y % 100 ≠ 0) || y % 400 = 0

def daysInMonth (y m : Nat) : Nat :=
  if m = 2 then (if isLeapYear y then 29 else 28)
  else if m = 4 ∨ m = 6 ∨ m = 9 ∨ m = 11 then 30
  else 31

/-- `datetime.strptime(s, "%Y-%m-%d %H:%M:%S")`, returning the date on
success: a 4-digit year (at least 1), a valid month, a day valid for
that month, and in-range time fields. -/
def parseYmdHms (s : String) : Option (Nat × Nat × Nat) :=
  match splitOnChar ' ' s.data with
  | [d, t] =>
      match splitOnChar '-' d, splitOnChar ':' t with
      | [ys, ms, ds], [hs, mins, secs] =>
          if ys.length = 4 ∧ ys.all Char.isDigit then
            let y := digitsToNat ys
            match digitsVal ms 1 12 2, digitsVal hs 0 23 2,
                digitsVal mins 0 59 2, digitsVal secs 0 59 2 with
            | some m, some _, some _, some _ =>
                match digitsVal ds 1 (daysInMonth y m) 2 with
                | some dd => if 1 ≤ y then some (y, m, dd) else none
                | none => none
            | _, _, _, _ => none
          else none
      | _, _ => none
  | _ => none

def pad2 (n : Nat) : String :=
  if n < 10 then "0" ++ toString n else toString n

def pad4 (n : Nat) : String :=
  if n < 10 then "000" ++ toString n
  else if n < 100 then "00" ++ toString n
  else if n < 1000 then "0" ++ toString n
  else toString n

/-- `dt.strftime("%Y-%m-%d")`. -/
def renderDay (d : Nat × Nat × Nat) : String :=
  pad4 d.1 ++ "-" ++ pad2 d.2.1 ++ "-" ++ pad2 d.2.2

/-- A raw scraped product as the standardizer reads it: the mapped
fields default to `''` when missing (as `.get(field, '')` does), the
price is a float or absent, and `scraped_at` is genuinely optional
(its absence triggers the clock fallback). -/
structure RawProduct where
  name : String
  current_price : Option ℚ
  url : String
  chip : String
  cpu_cores : String
  memory : String
  storage : String
  gpu_cores : String
  color : String
  scraped_at : Option String
deriving DecidableEq

/-- The canonical dashboard row built by `standardize_apple_product`. -/
structure CanonicalRecord where
  title : String
  condition : String
  price : Option ℚ
  change : ℚ
  url : String
  machine : String
  model : String
  year : String
  cpu : String
  cpu_cores : String
  hd : String
  ram : String
  gpu : String
  colour : String
  grade : String
  seller : String
  warning : String
  timestamp : String
  timestamp_day : String
  variant_id : String
deriving DecidableEq

/-- `standardize_apple_product`.  The two `datetime.now().strftime`
fallbacks (full timestamp, then date-only) are modelled by the explicit
clock argument `now = (now_ts, now_day)`; everything else is a function
of the record and the two lookup tables. -/
def standardize_apple_product (simple_tbl tbl : List (String × String))
    (now : String × String) (p : RawProduct) : CanonicalRecord :=
  let ram :=
    match searchDigits p.memory.data with
    | some ds => String.mk ds
    | none => p.memory
  let cpu_cores :=
    match searchDigits p.cpu_cores.data with
    | some ds => String.mk ds
    | none => p.cpu_cores
  let gpu :=
    match searchDigits p.gpu_cores.data with
    | some ds => String.mk ds ++ "-Core"
    | none => p.gpu_cores
  let hd0 :=
    match searchStorage (toUpperAscii p.storage).data with
    | some (ds, unit) =>
        let gb := if unit = "TB" then digitsToNat ds * 1000 else digitsToNat ds
        standardize_storage_format (toString gb)
    | none => standardize_storage_format p.storage
  let colour0 := standardize_colour p.color
  let machine := machineType p.name
  let model_number := extract_model_info p.name machine
  let year :=
    let y := extract_year_from_chip p.chip
    if y = "" then extract_year_from_model machine model_number else y
  let colour := if colour0 = "" then extract_colour_from_name p.name else colour0
  let hd :=
    if hd0 = "" ∧ (strContains (toLowerAscii machine) "iphone" ||
        strContains (toLowerAscii machine) "ipad") then
      match searchStorageName (toLowerAscii p.name).data with
      | some (ds, unit) =>
          toString (if unit = "TB" then digitsToNat ds * 1000 else digitsToNat ds)
      | none => hd0
    else hd0
  let timestamp := p.scraped_at.getD now.1
  let timestamp_day :=
    match parseYmdHms timestamp with
    | some d => renderDay d
    | none => now.2
  let vm := find_variant_id_and_model simple_tbl tbl
    machine year p.chip cpu_cores hd ram gpu colour "Excellent"
  let model := if vm.2 ≠ "" then vm.2 else model_number
  ⟨p.name, "Refurbished", p.current_price, 0, p.url, machine, model, year,
    p.chip, cpu_cores, hd, ram, gpu, colour, "Excellent", "Apple", "",
    timestamp, timestamp_day, vm.1⟩

/-- `standardize_apple_data`, with the per-record standardizer
abstracted as a fallible function (`Except` models a record whose
standardization raises): each record is tried in order, failures are
skipped, successes are appended. -/
def standardize_apple_data (f : RawProduct → Except String CanonicalRecord)
    (ps : List RawProduct) : List CanonicalRecord :=
  ps.foldl (fun acc p =>
    match f p with
    | .ok r => acc ++ [r]
    | .error _ => acc) []

/-! ### Standardizer claims -/

/-- C5 counterexample: a record without `scraped_at` standardizes
through the clock fallback, so two runs read at different instants
yield different records — standardization is not a function of the
record and table alone. -/
theorem standardize_not_clock_free :
    standardize_apple_product [] [] ("2024-01-01 00:00:00", "2024-01-01")
        ⟨"", none, "", "", "", "", "", "", "", none⟩ ≠
      standardize_apple_product [] [] ("2024-01-02 00:00:00", "2024-01-02")
        ⟨"", none, "", "", "", "", "", "", "", none⟩ := by
  intro h
  exact absurd (congrArg CanonicalRecord.timestamp h) (by decide)

/-- C5 amended: for a record carrying a `scraped_at` timestamp that
parses under `%Y-%m-%d %H:%M:%S`, standardization does not read the
clock: any two runs yield byte-identical canonical records. -/
theorem standardize_deterministic (simple_tbl tbl : List (String × String))
    (now1 now2 : String × String) (p : RawProduct) (ts : String)
    (hts : p.scraped_at = some ts) (hparse : (parseYmdHms ts).isSome) :
    standardize_apple_product simple_tbl tbl now1 p =
      standardize_apple_product simple_tbl tbl now2 p := by
  obtain ⟨d, hd⟩ := Option.isSome_iff_exists.mp hparse
  unfold standardize_apple_product
  simp only [hts, Option.getD_some, hd]

/-- Witness for C5 (amended): a record with a parseable timestamp is
standardized identically under two different clocks. -/
theorem standardize_deterministic_witness :
    standardize_apple_product [] [] ("2024-01-01 00:00:00", "2024-01-01")
        ⟨"MacBook Air M2", some 849, "u", "M2", "8", "16GB", "512GB",
          "10", "silver", some "2024-01-02 03:04:05"⟩ =
      standardize_apple_product [] [] ("2024-01-02 00:00:00", "2024-01-02")
        ⟨"MacBook Air M2", some 849, "u", "M2", "8", "16GB", "512GB",
          "10", "silver", some "2024-01-02 03:04:05"⟩ :=
  standardize_deterministic [] [] _ _ _ "2024-01-02 03:04:05" rfl (by decide)

/-- C8: batch standardization is total and equals, record for record,
the successful results in input order — a failing record is skipped and
never aborts the rest of the batch. -/
theorem standardize_apple_data_skips
    (f : RawProduct → Except String CanonicalRecord) (ps : List RawProduct) :
    standardize_apple_data f ps = ps.filterMap (fun p => (f p).toOption) := by
  unfold standardize_apple_data
  suffices h : ∀ acc : List CanonicalRecord,
      ps.foldl (fun acc p =>
        match f p with
        | .ok r => acc ++ [r]
        | .error _ => acc) acc =
      acc ++ ps.filterMap (fun p => (f p).toOption) by
    simpa using h []
  induction ps with
  | nil => intro acc; simp
  | cons p t ih =>
    intro acc
    rw [List.foldl_cons, List.filterMap_cons]
    cases hf : f p with
    | ok r => simp [hf, ih, Except.toOption]
    | error e => simp [hf, ih, Except.toOption]
